import Mathlib

deriving instance DecidableEq for Except

/-!
Verification of the authentication and refresh-token lifecycle module
(`app/backend/app/auth.py`) of the repository, against its specification.

The database-backed store (SQLAlchemy `User` and `RefreshToken` tables) is
embedded as Lean lists; ORM queries with `.filter(...).first()` become
`List.find?`, and record updates followed by `commit` become pure list
updates.  Wall-clock time is an explicit `Nat` parameter (seconds), and the
random values produced at run time (uuid4 token strings, uuid4 row ids,
per-call password salts) are explicit parameters of the operations.
-/

namespace AuthSpec

/-- Modelled from the spec: the Password Hasher is the external `pwdlib`
library (Argon2), whose implementation is not part of the repository source;
`auth.py` only delegates to it.  Per spec section 4.1 the hash embeds a
per-call random salt in its output and `verify` recomputes and compares.
A hash value is modelled as the salt together with a digest computed from
salt and plaintext; the digest function is injective in the plaintext for a
fixed salt, modelling collision-free behaviour. -/
structure HashString where
  salt : List Char
  digest : List Char
deriving DecidableEq, Repr

/-- The digest recomputed by the modelled hasher from salt and plaintext. -/
def rawDigest (salt : List Char) (plaintext : String) : List Char :=
  salt ++ '#' :: plaintext.data

/-- `get_password_hash` from `auth.py` (delegating to `password_hash.hash`):
hashes a plaintext with a per-call salt. -/
def get_password_hash (salt : List Char) (password : String) : HashString :=
  ⟨salt, rawDigest salt password⟩

/-- `verify_password` from `auth.py` (delegating to `password_hash.verify`):
recomputes the digest with the stored salt and compares; total, never
throws. -/
def verify_password (plain_password : String) (hashed_password : HashString) : Bool :=
  rawDigest hashed_password.salt plain_password == hashed_password.digest

/-- A row of the `users` table (`app/db/models.py`, class `User`). -/
structure StoredUser where
  id : String
  username : String
  email : String
  password_hash : HashString
  full_name : Option String
  is_active : Bool
deriving DecidableEq, Repr

/-- A row of the `refresh_tokens` table (`app/db/models.py`, class
`RefreshToken`).  `expires_at` is seconds since an arbitrary epoch. -/
structure StoredRefreshToken where
  user_id : String
  token : String
  expires_at : Nat
  revoked : Bool
deriving DecidableEq, Repr

/-- The persistent store: the two tables the auth module touches, in
insertion order (so `.first()` is `List.find?`). -/
structure Store where
  users : List StoredUser
  refresh_tokens : List StoredRefreshToken
deriving DecidableEq, Repr

/-- The shape of an `HTTPException` raised by the module: HTTP status plus
the machine-readable `code` and human `message` of its `detail` dict. -/
structure ApiError where
  status : Nat
  code : String
  message : String
deriving DecidableEq, Repr

def invalidCredentialsError : ApiError :=
  ⟨401, "invalid_credentials", "Incorrect username or password"⟩

def accountDisabledLoginError : ApiError :=
  ⟨403, "account_disabled", "Account is disabled"⟩

def accountDisabledRefreshError : ApiError :=
  ⟨403, "account_disabled", "Account disabled"⟩

def missingRefreshTokenError : ApiError :=
  ⟨400, "missing_refresh_token", "Missing refresh_token"⟩

def invalidRefreshTokenError : ApiError :=
  ⟨401, "invalid_refresh_token", "Invalid or expired refresh token"⟩

def usernameExistsError : ApiError :=
  ⟨400, "username_exists", "Username already exists"⟩

def emailExistsError : ApiError :=
  ⟨400, "email_exists", "Email already registered"⟩

/-- `SECRET_KEY = os.getenv("SECRET_KEY", "change-me-local")`: the configured
environment value when present, otherwise the built-in local default. -/
def SECRET_KEY (env : Option String) : String :=
  env.getD "change-me-local"

/-- `ALGORITHM = os.getenv("JWT_ALGORITHM", "HS256")`. -/
def ALGORITHM (env : Option String) : String :=
  env.getD "HS256"

/-- Default `ACCESS_TOKEN_EXPIRE_MINUTES` (env default "30"). -/
def ACCESS_TOKEN_EXPIRE_MINUTES : Nat := 30

/-- Default `REFRESH_TOKEN_EXPIRE_DAYS` (env default "30"). -/
def REFRESH_TOKEN_EXPIRE_DAYS : Nat := 30

/-- A signed JWT as produced by `jwt.encode(to_encode, SECRET_KEY,
algorithm=ALGORITHM)`: the claims (`sub`, `exp`, `iat`) together with the
key and algorithm used for the signature. -/
structure Jwt where
  sub : String
  exp : Nat
  iat : Nat
  key : String
  alg : String
deriving DecidableEq, Repr

/-- `create_access_token` from `auth.py`: encodes the claims with an expiry
of `now + expires_delta` (or the module default when no delta is supplied)
and signs with the given key.  Times and deltas are in seconds. -/
def create_access_token (sub : String) (expires_delta : Option Nat) (now : Nat)
    (secret alg : String) : Jwt :=
  let expire :=
    match expires_delta with
    | some d => now + d
    | none => now + ACCESS_TOKEN_EXPIRE_MINUTES * 60
  ⟨sub, expire, now, secret, alg⟩

/-- `get_user` from `auth.py`: first user whose username or email equals the
identifier.  (The Python wraps the row in a Pydantic `UserInDB` carrying the
same fields with `disabled = not is_active`; the row itself is returned
here.) -/
def get_user (db : Store) (username_or_email : String) : Option StoredUser :=
  db.users.find? fun u => u.username == username_or_email || u.email == username_or_email

/-- `authenticate_user` from `auth.py`: `None` when no user matches or the
password fails verification, the user otherwise. -/
def authenticate_user (db : Store) (username password : String) : Option StoredUser :=
  match get_user db username with
  | none => none
  | some user =>
    if verify_password password user.password_hash then some user else none

/-- `_create_refresh_token_record` from `auth.py`: persists a fresh token
row for the user, `revoked=False`, expiring `REFRESH_TOKEN_EXPIRE_DAYS`
days from now, and returns the raw token string.  The uuid4 hex string is
the explicit `token_str` parameter. -/
def _create_refresh_token_record (db : Store) (db_user : StoredUser)
    (token_str : String) (now : Nat) : String × Store :=
  let rt : StoredRefreshToken :=
    ⟨db_user.id, token_str, now + REFRESH_TOKEN_EXPIRE_DAYS * 86400, false⟩
  (token_str, { db with refresh_tokens := db.refresh_tokens ++ [rt] })

/-- Set `revoked := true` on the first row whose token matches (the `token`
column is unique, so the first match is the row the ORM query returns). -/
def revokeFirst : List StoredRefreshToken → String → List StoredRefreshToken
  | [], _ => []
  | rt :: rest, tok =>
    if rt.token == tok then { rt with revoked := true } :: rest
    else rt :: revokeFirst rest tok

/-- `_revoke_refresh_token` from `auth.py`: mark the matching token row
revoked if it exists; no effect otherwise. -/
def _revoke_refresh_token (db : Store) (token_str : String) : Store :=
  { db with refresh_tokens := revokeFirst db.refresh_tokens token_str }

/-- `_validate_refresh_token` from `auth.py`: the row if it exists, is not
revoked and is not expired (`expires_at < now` rejects), else `None`. -/
def _validate_refresh_token (db : Store) (token_str : String) (now : Nat) :
    Option StoredRefreshToken :=
  match db.refresh_tokens.find? (fun rt => rt.token == token_str) with
  | none => none
  | some rt =>
    if rt.revoked then none
    else if rt.expires_at < now then none
    else some rt

/-- The `Token` response model of the router. -/
structure Token where
  access_token : Jwt
  token_type : String
  refresh_token : Option String
  expires_in : Option Nat
deriving DecidableEq, Repr

/-- `login_for_access_token` (`POST /auth/token`): authenticate, check the
DB user is active (re-queried by username), then issue an access token and
persist a refresh token.  Returns the response or error, paired with the
resulting store. -/
def login_for_access_token (db : Store) (username password : String) (now : Nat)
    (freshTok : String) (secret alg : String) : Except ApiError Token × Store :=
  match authenticate_user db username password with
  | none => (.error invalidCredentialsError, db)
  | some user =>
    match db.users.find? (fun u => u.username == user.username) with
    | none => (.error accountDisabledLoginError, db)
    | some db_user =>
      if !db_user.is_active then (.error accountDisabledLoginError, db)
      else
        let expires := ACCESS_TOKEN_EXPIRE_MINUTES * 60
        let access := create_access_token user.username (some expires) now secret alg
        let (refresh_token_str, db1) := _create_refresh_token_record db db_user freshTok now
        (.ok ⟨access, "bearer", some refresh_token_str, some expires⟩, db1)

/-- `refresh_access_token` (`POST /auth/refresh`): an absent or empty token
string (Python falsiness of `token_str`) is a missing token; otherwise the
token is validated, the owning user must exist and be active, then the old
row is marked revoked, a new refresh token is persisted and a new access
token issued. -/
def refresh_access_token (db : Store) (payload : Option String) (now : Nat)
    (freshTok : String) (secret alg : String) : Except ApiError Token × Store :=
  match payload with
  | none => (.error missingRefreshTokenError, db)
  | some token_str =>
    if token_str = "" then (.error missingRefreshTokenError, db)
    else
      match _validate_refresh_token db token_str now with
      | none => (.error invalidRefreshTokenError, db)
      | some rt_record =>
        match db.users.find? (fun u => u.id == rt_record.user_id) with
        | none => (.error accountDisabledRefreshError, db)
        | some db_user =>
          if !db_user.is_active then (.error accountDisabledRefreshError, db)
          else
            let db1 := _revoke_refresh_token db token_str
            let (new_refresh, db2) := _create_refresh_token_record db1 db_user freshTok now
            let expires := ACCESS_TOKEN_EXPIRE_MINUTES * 60
            let access := create_access_token db_user.username (some expires) now secret alg
            (.ok ⟨access, "bearer", some new_refresh, some expires⟩, db2)

/-- `logout` (`POST /auth/logout`): revoke the given token when a non-empty
token string is supplied; always returns 204 (no error channel). -/
def logout (db : Store) (payload : Option String) : Store :=
  match payload with
  | none => db
  | some token_str =>
    if token_str = "" then db else _revoke_refresh_token db token_str

/-- `signup` (`POST /auth/signup`): reject an existing username, then an
existing email, else create an active user with the hashed password.  The
per-call salt and the uuid4 row id are explicit parameters. -/
def signup (db : Store) (username email password : String) (full_name : Option String)
    (salt : List Char) (uid : String) : Except ApiError StoredUser × Store :=
  if (db.users.find? fun u => u.username == username).isSome then
    (.error usernameExistsError, db)
  else if (db.users.find? fun u => u.email == email).isSome then
    (.error emailExistsError, db)
  else
    let hashed := get_password_hash salt password
    let db_user : StoredUser := ⟨uid, username, email, hashed, full_name, true⟩
    (.ok db_user, { db with users := db.users ++ [db_user] })

/-! Concrete stores used to evaluate the operations on explicit inputs. -/

/-- A sample password hash for the concrete stores. -/
def exHash : HashString := get_password_hash ['s'] "pw1"

/-- The empty store. -/
def emptyStore : Store := ⟨[], []⟩

/-- An active user owning refresh token `t1`. -/
def exUserActive : StoredUser := ⟨"u1", "alice", "a@x.com", exHash, none, true⟩

/-- A disabled user (same credentials, `is_active = false`). -/
def exUserInactive : StoredUser := ⟨"u1", "alice", "a@x.com", exHash, none, false⟩

/-- Store with an active user and a valid refresh token. -/
def exDbActive : Store := ⟨[exUserActive], [⟨"u1", "t1", 100, false⟩]⟩

/-- Store with a refresh token exactly at its expiry instant boundary. -/
def exDbBoundary : Store := ⟨[], [⟨"u1", "t1", 5, false⟩]⟩

/-- Store with a disabled user and no tokens. -/
def exDbInactive : Store := ⟨[exUserInactive], []⟩

/-- Store with a disabled user still owning a valid refresh token. -/
def exDbInactiveTok : Store := ⟨[exUserInactive], [⟨"u1", "t1", 100, false⟩]⟩

/-- Store holding one already-revoked refresh token. -/
def exDbRevoked : Store := ⟨[], [⟨"u1", "t1", 100, true⟩]⟩

/-- Revoked-ness persists from one token list to another: every record of
the second list carrying the token of a revoked record of the first is
itself revoked. -/
def revokedPersistsL (l l' : List StoredRefreshToken) : Prop :=
  ∀ rt ∈ l, rt.revoked = true → ∀ rt' ∈ l', rt'.token = rt.token → rt'.revoked = true

/-- Revoked-ness persists from one store to another. -/
def revokedPersists (db db' : Store) : Prop :=
  revokedPersistsL db.refresh_tokens db'.refresh_tokens

/-! ## Helper lemmas -/

theorem revokeFirst_eq_of_find?_none (l : List StoredRefreshToken) (tok : String)
    (h : l.find? (fun r => r.token == tok) = none) : revokeFirst l tok = l := by
  induction l with
  | nil => rfl
  | cons a rest ih =>
    cases hp : (a.token == tok) with
    | true => simp [List.find?_cons, hp] at h
    | false =>
      simp only [List.find?_cons, hp] at h
      simp [revokeFirst, hp, ih h]

theorem setRevoked_eq_self (rt : StoredRefreshToken) (h : rt.revoked = true) :
    { rt with revoked := true } = rt := by
  cases rt
  subst h
  rfl

theorem revokeFirst_eq_of_find?_revoked (l : List StoredRefreshToken) (tok : String)
    (rt : StoredRefreshToken) (h : l.find? (fun r => r.token == tok) = some rt)
    (hrev : rt.revoked = true) : revokeFirst l tok = l := by
  induction l with
  | nil => simp at h
  | cons a rest ih =>
    cases hp : (a.token == tok) with
    | true =>
      simp only [List.find?_cons, hp] at h
      cases h
      simp [revokeFirst, hp, setRevoked_eq_self _ hrev]
    | false =>
      simp only [List.find?_cons, hp] at h
      simp [revokeFirst, hp, ih h]

theorem find?_revokeFirst (l : List StoredRefreshToken) (tok : String)
    (rt : StoredRefreshToken) (h : l.find? (fun r => r.token == tok) = some rt) :
    (revokeFirst l tok).find? (fun r => r.token == tok) = some { rt with revoked := true } := by
  induction l with
  | nil => simp at h
  | cons a rest ih =>
    cases hp : (a.token == tok) with
    | true =>
      simp only [List.find?_cons, hp] at h
      cases h
      simp [revokeFirst, hp, List.find?_cons]
    | false =>
      simp only [List.find?_cons, hp] at h
      simp [revokeFirst, hp, List.find?_cons, ih h]

theorem revokeFirst_idem (l : List StoredRefreshToken) (tok : String) :
    revokeFirst (revokeFirst l tok) tok = revokeFirst l tok := by
  induction l with
  | nil => rfl
  | cons a rest ih =>
    cases hp : (a.token == tok) with
    | true => simp [revokeFirst, hp]
    | false => simp [revokeFirst, hp, ih]

theorem mem_revokeFirst {l : List StoredRefreshToken} {tok : String}
    {rt' : StoredRefreshToken} (h : rt' ∈ revokeFirst l tok) :
    rt' ∈ l ∨ ∃ x ∈ l, rt' = { x with revoked := true } := by
  induction l with
  | nil => simp [revokeFirst] at h
  | cons a rest ih =>
    cases hp : (a.token == tok) with
    | true =>
      simp only [revokeFirst, hp, if_pos] at h
      rcases List.mem_cons.mp h with h1 | h1
      · exact Or.inr ⟨a, List.mem_cons_self a rest, h1⟩
      · exact Or.inl (List.mem_cons_of_mem a h1)
    | false =>
      simp only [revokeFirst, hp] at h
      rcases List.mem_cons.mp h with h1 | h1
      · exact Or.inl (h1 ▸ List.mem_cons_self a rest)
      · rcases ih h1 with h2 | ⟨x, hx, hx2⟩
        · exact Or.inl (List.mem_cons_of_mem a h2)
        · exact Or.inr ⟨x, List.mem_cons_of_mem a hx, hx2⟩

theorem validate_some_iff (db : Store) (s : String) (now : Nat) (rt : StoredRefreshToken) :
    _validate_refresh_token db s now = some rt ↔
      (db.refresh_tokens.find? (fun r => r.token == s) = some rt ∧
        rt.revoked = false ∧ now ≤ rt.expires_at) := by
  unfold _validate_refresh_token
  cases hf : db.refresh_tokens.find? (fun r => r.token == s) with
  | none => simp
  | some r =>
    by_cases hrev : r.revoked = true
    · simp only [hrev, if_true]
      constructor
      · intro h
        exact absurd h (by simp)
      · rintro ⟨h1, h2, _⟩
        cases h1
        rw [hrev] at h2
        exact absurd h2 (by simp)
    · have hrev' : r.revoked = false := by simpa using hrev
      by_cases hexp : r.expires_at < now
      · simp only [hrev', if_false, hexp, if_true, Bool.false_eq_true]
        constructor
        · intro h
          exact absurd h (by simp)
        · rintro ⟨h1, _, h3⟩
          cases h1
          omega
      · simp only [hrev', Bool.false_eq_true, if_false, hexp, if_true]
        constructor
        · intro h
          cases h
          exact ⟨rfl, hrev', by omega⟩
        · rintro ⟨h1, _, _⟩
          cases h1
          rfl

theorem validate_none_of_all_revoked (db : Store) (tok : String) (now : Nat)
    (h : ∀ rt' ∈ db.refresh_tokens, rt'.token = tok → rt'.revoked = true) :
    _validate_refresh_token db tok now = none := by
  unfold _validate_refresh_token
  cases hf : db.refresh_tokens.find? (fun r => r.token == tok) with
  | none => rfl
  | some r =>
    have hm := List.mem_of_find?_eq_some hf
    have hp := List.find?_some hf
    have hr : r.revoked = true := h r hm (by simpa using hp)
    simp [hr]

/-- Claim C2 counterexample: at the exact expiry instant (`now = expires_at`)
the code still returns the record, because `_validate_refresh_token` only
rejects when `expires_at < now`; the claim requires `now < expires_at`,
which fails here, so the claim as stated is false at this input. -/
theorem c2_counterexample :
    _validate_refresh_token exDbBoundary "t1" 5 =
      some ⟨"u1", "t1", 5, false⟩ ∧ ¬ (5 < 5) := by decide

/-- Claim C2 (amended): `_validate_refresh_token s` returns the stored
record iff a record with token `s` is found, its revoked flag is false and
`now ≤ expires_at` (the token is still accepted at the exact expiry
instant); in every other case it returns `none`, with no distinction among
unknown, revoked or expired visible to the caller. -/
theorem c2_validate_characterization (db : Store) (s : String) (now : Nat)
    (rt : StoredRefreshToken) :
    _validate_refresh_token db s now = some rt ↔
      (db.refresh_tokens.find? (fun r => r.token == s) = some rt ∧
        rt.revoked = false ∧ now ≤ rt.expires_at) :=
  validate_some_iff db s now rt

/-- Claim C8 counterexample: with no secret configured in the environment,
`SECRET_KEY` resolves to the built-in default and `create_access_token`
succeeds, returning a token signed with the default key instead of
failing. -/
theorem c8_counterexample :
    create_access_token "alice" (some 1800) 0 (SECRET_KEY none) (ALGORITHM none) =
      ⟨"alice", 1800, 0, "change-me-local", "HS256"⟩ := by decide

/-- Claim C8 (amended): if no server signing secret is configured in the
environment, the module does not fail: `SECRET_KEY` falls back to the local
development default and token issuance succeeds, signing with that default
key. -/
theorem c8_default_key_used (sub : String) (delta : Option Nat) (now : Nat) (alg : String) :
    (create_access_token sub delta now (SECRET_KEY none) alg).key = "change-me-local" ∧
    (create_access_token sub delta now (SECRET_KEY none) alg).sub = sub := by
  cases delta <;> simp [create_access_token, SECRET_KEY]

/-- Claim C5: signup rejects an existing username with the username error,
otherwise an existing email with the email error (username checked first,
so when both collide the username error wins as part one ignores the email
entirely); otherwise it creates a user whose active flag is true and whose
stored hash is the hash of the supplied password, appended to the user
table. -/
theorem c5_signup_order_and_creation (db : Store) (username email password : String)
    (full_name : Option String) (salt : List Char) (uid : String) :
    ((db.users.find? (fun u => u.username == username)).isSome = true →
      signup db username email password full_name salt uid = (.error usernameExistsError, db)) ∧
    (db.users.find? (fun u => u.username == username) = none →
      (db.users.find? (fun u => u.email == email)).isSome = true →
      signup db username email password full_name salt uid = (.error emailExistsError, db)) ∧
    (db.users.find? (fun u => u.username == username) = none →
      db.users.find? (fun u => u.email == email) = none →
      signup db username email password full_name salt uid =
        (.ok ⟨uid, username, email, get_password_hash salt password, full_name, true⟩,
          { db with users :=
              db.users ++ [⟨uid, username, email, get_password_hash salt password, full_name, true⟩] })) := by
  refine ⟨fun h1 => ?_, fun h1 h2 => ?_, fun h1 h2 => ?_⟩
  · simp [signup, h1]
  · simp [signup, h1, h2]
  · simp [signup, h1, h2]

/-- Witness for C5: on the empty store, signup creates the active user. -/
theorem c5_witness :
    signup emptyStore "alice" "a@x.com" "pw1" none ['s'] "u1" =
      (.ok ⟨"u1", "alice", "a@x.com", get_password_hash ['s'] "pw1", none, true⟩,
        { emptyStore with users :=
            [⟨"u1", "alice", "a@x.com", get_password_hash ['s'] "pw1", none, true⟩] }) := by
  have h := (c5_signup_order_and_creation emptyStore "alice" "a@x.com" "pw1" none ['s'] "u1").2.2
    (by decide) (by decide)
  simpa [emptyStore] using h

/-- Claim C6: revocation is idempotent (revoking twice equals revoking
once, both for the raw helper and for the logout route), logging out with
no token is a no-op, and revoking an unknown or already-revoked token
leaves the store unchanged; the logout route has no error outcome, so all
these cases return success. -/
theorem c6_revoke_idempotent (db : Store) (s : String) :
    _revoke_refresh_token (_revoke_refresh_token db s) s = _revoke_refresh_token db s ∧
    logout (logout db (some s)) (some s) = logout db (some s) ∧
    logout db none = db ∧
    (db.refresh_tokens.find? (fun r => r.token == s) = none →
      _revoke_refresh_token db s = db) ∧
    (∀ rt, db.refresh_tokens.find? (fun r => r.token == s) = some rt →
      rt.revoked = true → _revoke_refresh_token db s = db) := by
  refine ⟨?_, ?_, rfl, fun h => ?_, fun rt h hrev => ?_⟩
  · simp [_revoke_refresh_token, revokeFirst_idem]
  · by_cases hs : s = ""
    · simp [logout, hs]
    · simp [logout, hs, _revoke_refresh_token, revokeFirst_idem]
  · simp [_revoke_refresh_token, revokeFirst_eq_of_find?_none _ _ h]
  · simp [_revoke_refresh_token, revokeFirst_eq_of_find?_revoked _ _ _ h hrev]

/-- Witness for C6: revoking an unknown token and an already-revoked token
on concrete stores leaves them unchanged. -/
theorem c6_witness :
    _revoke_refresh_token exDbActive "zzz" = exDbActive ∧
    _revoke_refresh_token exDbRevoked "t1" = exDbRevoked := by
  constructor
  · exact (c6_revoke_idempotent exDbActive "zzz").2.2.2.1 (by decide)
  · exact (c6_revoke_idempotent exDbRevoked "t1").2.2.2.2 ⟨"u1", "t1", 100, true⟩
      (by decide) (by decide)

theorem rawDigest_ne_of_ne (salt : List Char) {p q : String} (hq : q ≠ p) :
    rawDigest salt q ≠ rawDigest salt p := by
  intro h
  unfold rawDigest at h
  have h2 := List.append_cancel_left h
  have h3 : q.data = p.data := by
    injection h2
  exact hq (String.ext h3)

/-- Claim C9: verification succeeds on the original plaintext and fails
(returning false, never throwing — it is a total Bool function) on any
other string; in particular the hash stored by a valid signup verifies
against the original plaintext and against no other string. -/
theorem c9_hash_verify_roundtrip (salt : List Char) (p q : String) (db : Store)
    (username email : String) (full_name : Option String) (uid : String)
    (hq : q ≠ p)
    (hu : db.users.find? (fun u => u.username == username) = none)
    (he : db.users.find? (fun u => u.email == email) = none) :
    verify_password p (get_password_hash salt p) = true ∧
    verify_password q (get_password_hash salt p) = false ∧
    (∀ newUser db2,
      signup db username email p full_name salt uid = (.ok newUser, db2) →
      newUser ∈ db2.users ∧
      verify_password p newUser.password_hash = true ∧
      verify_password q newUser.password_hash = false) := by
  have hyes : verify_password p (get_password_hash salt p) = true := by
    simp [verify_password, get_password_hash]
  have hno : verify_password q (get_password_hash salt p) = false := by
    simp only [verify_password, get_password_hash]
    exact beq_eq_false_iff_ne.mpr (rawDigest_ne_of_ne salt hq)
  refine ⟨hyes, hno, fun newUser db2 hsu => ?_⟩
  have : signup db username email p full_name salt uid =
      (.ok ⟨uid, username, email, get_password_hash salt p, full_name, true⟩,
        { db with users :=
            db.users ++ [⟨uid, username, email, get_password_hash salt p, full_name, true⟩] }) := by
    simp [signup, hu, he]
  rw [this] at hsu
  have h1 : newUser = ⟨uid, username, email, get_password_hash salt p, full_name, true⟩ := by
    have := congrArg Prod.fst hsu
    simpa using this.symm
  have h2 : db2 = { db with users :=
      db.users ++ [⟨uid, username, email, get_password_hash salt p, full_name, true⟩] } := by
    have := congrArg Prod.snd hsu
    simpa using this.symm
  subst h1
  subst h2
  refine ⟨List.mem_append_right _ (List.mem_singleton.mpr rfl), hyes, hno⟩

/-- Witness for C9 at a concrete salt, plaintext and second string. -/
theorem c9_witness :
    verify_password "pw1" (get_password_hash ['s'] "pw1") = true ∧
    verify_password "pw2" (get_password_hash ['s'] "pw1") = false := by
  have h := c9_hash_verify_roundtrip ['s'] "pw1" "pw2" emptyStore "alice" "a@x.com" none "u1"
    (by decide) (by decide) (by decide)
  exact ⟨h.1, h.2.1⟩

/-- Claim C4: a login whose identifier matches no user and a login whose
identifier matches a user but whose password fails verification both
produce the same single error value (the same status, code and message),
revealing nothing about which cause occurred. -/
theorem c4_invalid_credentials_indistinguishable (db1 db2 : Store)
    (id1 pw1 id2 pw2 : String) (now1 now2 : Nat) (f1 f2 sk1 sk2 a1 a2 : String)
    (u : StoredUser)
    (h1 : get_user db1 id1 = none)
    (h2 : get_user db2 id2 = some u)
    (h3 : verify_password pw2 u.password_hash = false) :
    (login_for_access_token db1 id1 pw1 now1 f1 sk1 a1).1 = .error invalidCredentialsError ∧
    (login_for_access_token db2 id2 pw2 now2 f2 sk2 a2).1 = .error invalidCredentialsError ∧
    (login_for_access_token db1 id1 pw1 now1 f1 sk1 a1).1 =
      (login_for_access_token db2 id2 pw2 now2 f2 sk2 a2).1 := by
  have e1 : (login_for_access_token db1 id1 pw1 now1 f1 sk1 a1).1 =
      .error invalidCredentialsError := by
    simp [login_for_access_token, authenticate_user, h1]
  have e2 : (login_for_access_token db2 id2 pw2 now2 f2 sk2 a2).1 =
      .error invalidCredentialsError := by
    simp [login_for_access_token, authenticate_user, h2, h3]
  exact ⟨e1, e2, e1.trans e2.symm⟩

/-- Witness for C4: unknown identifier on the empty store versus wrong
password for an existing user give the identical error. -/
theorem c4_witness :
    (login_for_access_token emptyStore "bob" "x" 0 "f" "k" "HS256").1 =
      .error invalidCredentialsError ∧
    (login_for_access_token exDbActive "alice" "bad" 0 "f" "k" "HS256").1 =
      .error invalidCredentialsError := by
  have h := c4_invalid_credentials_indistinguishable emptyStore exDbActive "bob" "x"
    "alice" "bad" 0 0 "f" "f" "k" "k" "HS256" "HS256" exUserActive
    (by decide) (by decide) (by decide)
  exact ⟨h.1, h.2.1⟩

theorem find?_username_eq_some_of_mem {l : List StoredUser} {u : StoredUser}
    (hnd : (l.map (fun x => x.username)).Nodup) (hm : u ∈ l) :
    l.find? (fun x => x.username == u.username) = some u := by
  induction l with
  | nil => simp at hm
  | cons a rest ih =>
    rw [List.map_cons, List.nodup_cons] at hnd
    rcases List.mem_cons.mp hm with h | h
    · subst h
      simp [List.find?_cons]
    · cases hp : (a.username == u.username) with
      | true =>
        exfalso
        have hmem : u.username ∈ rest.map (fun x => x.username) :=
          List.mem_map_of_mem _ h
        have ha : a.username = u.username := by simpa using hp
        exact hnd.1 (ha ▸ hmem)
      | false =>
        simp [List.find?_cons, hp, ih hnd.2 h]

/-- Claim C3: when the user matched by the login identifier is disabled
(and usernames are unique, as the users table enforces), the login result
is the account-disabled error exactly when the supplied password verifies
against the stored hash; with a failing password the result is the
invalid-credentials error, because the active-flag check runs only after
password verification. -/
theorem c3_disabled_check_after_password (db : Store) (ident pw : String) (now : Nat)
    (fresh sk alg : String) (u : StoredUser)
    (hnd : (db.users.map (fun x => x.username)).Nodup)
    (hmatch : get_user db ident = some u)
    (hinactive : u.is_active = false) :
    ((login_for_access_token db ident pw now fresh sk alg).1 =
        .error accountDisabledLoginError ↔
      verify_password pw u.password_hash = true) ∧
    (verify_password pw u.password_hash = false →
      (login_for_access_token db ident pw now fresh sk alg).1 =
        .error invalidCredentialsError) := by
  have hmem : u ∈ db.users := List.mem_of_find?_eq_some hmatch
  have hre : db.users.find? (fun x => x.username == u.username) = some u :=
    find?_username_eq_some_of_mem hnd hmem
  have hbad : ∀ hv : verify_password pw u.password_hash = false,
      (login_for_access_token db ident pw now fresh sk alg).1 =
        .error invalidCredentialsError := by
    intro hv
    simp [login_for_access_token, authenticate_user, hmatch, hv]
  have hgood : ∀ hv : verify_password pw u.password_hash = true,
      (login_for_access_token db ident pw now fresh sk alg).1 =
        .error accountDisabledLoginError := by
    intro hv
    simp [login_for_access_token, authenticate_user, hmatch, hv, hre, hinactive]
  refine ⟨⟨fun h => ?_, hgood⟩, hbad⟩
  cases hv : verify_password pw u.password_hash with
  | true => rfl
  | false =>
    rw [hbad hv] at h
    have : invalidCredentialsError = accountDisabledLoginError := by
      injection h
    exact absurd this (by decide)

/-- Witness for C3: a disabled account with the correct password yields the
account-disabled error; with a wrong password it yields the
invalid-credentials error. -/
theorem c3_witness :
    (login_for_access_token exDbInactive "alice" "pw1" 0 "f" "k" "HS256").1 =
      .error accountDisabledLoginError ∧
    (login_for_access_token exDbInactive "alice" "bad" 0 "f" "k" "HS256").1 =
      .error invalidCredentialsError := by
  constructor
  · exact (c3_disabled_check_after_password exDbInactive "alice" "pw1" 0 "f" "k" "HS256"
      exUserInactive (by decide) (by decide) (by decide)).1.mpr (by decide)
  · exact (c3_disabled_check_after_password exDbInactive "alice" "bad" 0 "f" "k" "HS256"
      exUserInactive (by decide) (by decide) (by decide)).2 (by decide)

/-- Claim C10: presenting a valid (unrevoked, unexpired) refresh token
whose owning user is disabled makes the refresh route fail with the
account-disabled error and leaves the store completely unchanged — in
particular the presented token is still unrevoked, so it could be rotated
later if the user were re-activated. -/
theorem c10_refresh_disabled_user_unchanged (db : Store) (t : String) (now : Nat)
    (fresh sk alg : String) (rt : StoredRefreshToken) (u : StoredUser)
    (ht : t ≠ "")
    (hv : _validate_refresh_token db t now = some rt)
    (hu : db.users.find? (fun x => x.id == rt.user_id) = some u)
    (hin : u.is_active = false) :
    refresh_access_token db (some t) now fresh sk alg =
      (.error accountDisabledRefreshError, db) ∧
    rt ∈ db.refresh_tokens ∧ rt.revoked = false := by
  have hchar := (validate_some_iff db t now rt).mp hv
  refine ⟨?_, List.mem_of_find?_eq_some hchar.1, hchar.2.1⟩
  simp [refresh_access_token, ht, hv, hu, hin]

/-- Witness for C10 on a concrete store with a disabled user owning a
valid token. -/
theorem c10_witness :
    refresh_access_token exDbInactiveTok (some "t1") 0 "f9" "k" "HS256" =
      (.error accountDisabledRefreshError, exDbInactiveTok) := by
  exact (c10_refresh_disabled_user_unchanged exDbInactiveTok "t1" 0 "f9" "k" "HS256"
    ⟨"u1", "t1", 100, false⟩ exUserInactive (by decide) (by decide) (by decide)
    (by decide)).1

theorem revokeFirst_all_revoked {l : List StoredRefreshToken} {tok : String}
    (hnd : (l.map (fun r => r.token)).Nodup) :
    ∀ rt' ∈ revokeFirst l tok, rt'.token = tok → rt'.revoked = true := by
  induction l with
  | nil =>
    intro rt' h
    simp [revokeFirst] at h
  | cons a rest ih =>
    rw [List.map_cons, List.nodup_cons] at hnd
    intro rt' hrt' htok
    cases hp : (a.token == tok) with
    | true =>
      simp only [revokeFirst, hp, if_pos] at hrt'
      rcases List.mem_cons.mp hrt' with h | h
      · rw [h]
      · exfalso
        have ha : a.token = tok := by simpa using hp
        have hmem : rt'.token ∈ rest.map (fun r => r.token) := List.mem_map_of_mem _ h
        rw [htok, ← ha] at hmem
        exact hnd.1 hmem
    | false =>
      simp only [revokeFirst, hp, Bool.false_eq_true, if_false] at hrt'
      rcases List.mem_cons.mp hrt' with h | h
      · exfalso
        subst h
        simp [htok] at hp
      · exact ih hnd.2 rt' h htok

theorem refresh_error_of_validate_none (db : Store) (s : String) (now : Nat)
    (fresh sk alg : String) (hs : s ≠ "")
    (hv : _validate_refresh_token db s now = none) :
    refresh_access_token db (some s) now fresh sk alg =
      (.error invalidRefreshTokenError, db) := by
  simp [refresh_access_token, hs, hv]

/-- Claim C1 (amended): on a nonempty token string that validates, with an
active owning user, and with the freshly generated token string not already
stored (uuid4 and the unique column guarantee this), the refresh route
succeeds: the presented token row is marked revoked, a new refresh token
row for the same user is appended, and a new access token for that user is
issued; the new refresh token string differs from the presented one, and a
second rotation of the same token then fails with the
invalid-refresh-token error.  Any nonempty token string that does not
validate fails with exactly that error and an unchanged store; an absent or
empty token string instead fails with the missing-token error. -/
theorem c1_rotate_once (db : Store) (t : String) (now : Nat) (fresh sk alg : String) :
    (∀ rt u, t ≠ "" →
      (db.refresh_tokens.map (fun r => r.token)).Nodup →
      _validate_refresh_token db t now = some rt →
      db.users.find? (fun x => x.id == rt.user_id) = some u →
      u.is_active = true →
      fresh ∉ db.refresh_tokens.map (fun r => r.token) →
      refresh_access_token db (some t) now fresh sk alg =
        (.ok ⟨create_access_token u.username (some (ACCESS_TOKEN_EXPIRE_MINUTES * 60)) now sk alg,
            "bearer", some fresh, some (ACCESS_TOKEN_EXPIRE_MINUTES * 60)⟩,
          ⟨db.users, revokeFirst db.refresh_tokens t ++
            [⟨u.id, fresh, now + REFRESH_TOKEN_EXPIRE_DAYS * 86400, false⟩]⟩) ∧
      fresh ≠ t ∧
      u.id = rt.user_id ∧
      (revokeFirst db.refresh_tokens t).find? (fun r => r.token == t) =
        some { rt with revoked := true } ∧
      (∀ now2 fresh2,
        refresh_access_token (refresh_access_token db (some t) now fresh sk alg).2
            (some t) now2 fresh2 sk alg =
          (.error invalidRefreshTokenError,
            (refresh_access_token db (some t) now fresh sk alg).2))) ∧
    (∀ s : String, s ≠ "" → _validate_refresh_token db s now = none →
      refresh_access_token db (some s) now fresh sk alg =
        (.error invalidRefreshTokenError, db)) := by
  constructor
  · intro rt u ht hnd hv hu hact hfresh
    have hchar := (validate_some_iff db t now rt).mp hv
    have hmem : rt ∈ db.refresh_tokens := List.mem_of_find?_eq_some hchar.1
    have htok : rt.token = t := by
      have := List.find?_some hchar.1
      simpa using this
    have htmem : t ∈ db.refresh_tokens.map (fun r => r.token) :=
      htok ▸ List.mem_map_of_mem _ hmem
    have hne : fresh ≠ t := fun he => hfresh (he ▸ htmem)
    have huid : u.id = rt.user_id := by
      have := List.find?_some hu
      simpa using this
    have heq : refresh_access_token db (some t) now fresh sk alg =
        (.ok ⟨create_access_token u.username (some (ACCESS_TOKEN_EXPIRE_MINUTES * 60)) now sk alg,
            "bearer", some fresh, some (ACCESS_TOKEN_EXPIRE_MINUTES * 60)⟩,
          ⟨db.users, revokeFirst db.refresh_tokens t ++
            [⟨u.id, fresh, now + REFRESH_TOKEN_EXPIRE_DAYS * 86400, false⟩]⟩) := by
      simp [refresh_access_token, ht, hv, hu, hact, _revoke_refresh_token,
        _create_refresh_token_record]
    refine ⟨heq, hne, huid, find?_revokeFirst _ _ _ hchar.1, fun now2 fresh2 => ?_⟩
    have hall : ∀ rt' ∈ (refresh_access_token db (some t) now fresh sk alg).2.refresh_tokens,
        rt'.token = t → rt'.revoked = true := by
      rw [heq]
      intro rt' hrt' htok'
      rcases List.mem_append.mp hrt' with h | h
      · exact revokeFirst_all_revoked hnd rt' h htok'
      · exfalso
        have : rt' = ⟨u.id, fresh, now + REFRESH_TOKEN_EXPIRE_DAYS * 86400, false⟩ :=
          List.mem_singleton.mp h
        subst this
        exact hne htok'
    have hv2 : _validate_refresh_token (refresh_access_token db (some t) now fresh sk alg).2
        t now2 = none :=
      validate_none_of_all_revoked _ t now2 hall
    exact refresh_error_of_validate_none _ t now2 fresh2 sk alg ht hv2
  · intro s hs hv
    exact refresh_error_of_validate_none db s now fresh sk alg hs hv

/-- Witness for C1 on a concrete store: rotation of the valid token `t1`
succeeds and rotating it a second time fails. -/
theorem c1_witness :
    refresh_access_token exDbActive (some "t1") 0 "f9" "k" "HS256" =
      (.ok ⟨⟨"alice", 1800, 0, "k", "HS256"⟩, "bearer", some "f9", some 1800⟩,
        ⟨[exUserActive], [⟨"u1", "t1", 100, true⟩, ⟨"u1", "f9", 2592000, false⟩]⟩) ∧
    refresh_access_token
        (⟨[exUserActive], [⟨"u1", "t1", 100, true⟩, ⟨"u1", "f9", 2592000, false⟩]⟩ : Store)
        (some "t1") 1 "f10" "k" "HS256" =
      (.error invalidRefreshTokenError,
        ⟨[exUserActive], [⟨"u1", "t1", 100, true⟩, ⟨"u1", "f9", 2592000, false⟩]⟩) := by
  have h := (c1_rotate_once exDbActive "t1" 0 "f9" "k" "HS256").1
    ⟨"u1", "t1", 100, false⟩ exUserActive (by decide) (by decide) (by decide)
    (by decide) (by decide) (by decide)
  constructor
  · have := h.1
    simpa [exDbActive, exUserActive, revokeFirst, create_access_token] using this
  · have h2 := (c1_rotate_once
      (⟨[exUserActive], [⟨"u1", "t1", 100, true⟩, ⟨"u1", "f9", 2592000, false⟩]⟩ : Store)
      "t1" 1 "f10" "k" "HS256").2 "t1" (by decide) (by decide)
    exact h2

/-- Claim C1 counterexample: the empty token string corresponds to no valid
stored token, yet the refresh route fails with the missing-token error, not
the invalid-refresh-token error the claim requires for every such string. -/
theorem c1_counterexample :
    _validate_refresh_token emptyStore "" 0 = none ∧
    refresh_access_token emptyStore (some "") 0 "f" "k" "HS256" =
      (.error missingRefreshTokenError, emptyStore) ∧
    missingRefreshTokenError ≠ invalidRefreshTokenError := by decide

theorem revokedPersistsL_refl {l : List StoredRefreshToken}
    (hnd : (l.map (fun r => r.token)).Nodup) : revokedPersistsL l l := by
  intro rt hrt hrev rt' hrt' htok
  have h := List.inj_on_of_nodup_map hnd hrt' hrt htok
  rw [h]
  exact hrev

theorem revokedPersistsL_revokeFirst {l : List StoredRefreshToken} {tok : String}
    (hnd : (l.map (fun r => r.token)).Nodup) :
    revokedPersistsL l (revokeFirst l tok) := by
  intro rt hrt hrev rt' hrt' htok
  rcases mem_revokeFirst hrt' with h | ⟨x, hx, hx2⟩
  · have h2 := List.inj_on_of_nodup_map hnd h hrt htok
    rw [h2]
    exact hrev
  · rw [hx2]

theorem revokedPersistsL_append (l : List StoredRefreshToken) (uid tokStr : String)
    (ea : Nat) (rv : Bool)
    (hnd : (l.map (fun r => r.token)).Nodup)
    (hf : tokStr ∉ l.map (fun r => r.token)) :
    revokedPersistsL l (l ++ [⟨uid, tokStr, ea, rv⟩]) := by
  intro rt hrt hrev rt' hrt' htok
  rcases List.mem_append.mp hrt' with h | h
  · have h2 := List.inj_on_of_nodup_map hnd h hrt htok
    rw [h2]
    exact hrev
  · exfalso
    have he : rt' = ⟨uid, tokStr, ea, rv⟩ := List.mem_singleton.mp h
    subst he
    have hmem : rt.token ∈ l.map (fun r => r.token) := List.mem_map_of_mem _ hrt
    rw [← htok] at hmem
    exact hf hmem

theorem revokedPersistsL_revokeFirst_append (l : List StoredRefreshToken)
    (tok uid tokStr : String) (ea : Nat) (rv : Bool)
    (hnd : (l.map (fun r => r.token)).Nodup)
    (hf : tokStr ∉ l.map (fun r => r.token)) :
    revokedPersistsL l (revokeFirst l tok ++ [⟨uid, tokStr, ea, rv⟩]) := by
  intro rt hrt hrev rt' hrt' htok
  rcases List.mem_append.mp hrt' with h | h
  · exact revokedPersistsL_revokeFirst hnd rt hrt hrev rt' h htok
  · exfalso
    have he : rt' = ⟨uid, tokStr, ea, rv⟩ := List.mem_singleton.mp h
    subst he
    have hmem : rt.token ∈ l.map (fun r => r.token) := List.mem_map_of_mem _ hrt
    rw [← htok] at hmem
    exact hf hmem

/-- Claim C7: provided the stored token strings are distinct and the fresh
token string generated during the call is not already stored (the unique
column and uuid4 guarantee both), every operation of the module — login,
refresh, logout, signup — carries a revoked token row to a revoked token
row: no transition leaves the revoked state.  Consequently a token revoked
before any such operation is never again accepted by
`_validate_refresh_token` afterwards (`_validate_refresh_token` itself
never writes the store at all, being a pure query). -/
theorem c7_revoked_is_terminal (db : Store) (ident pw t sUsername sEmail sPassword : String)
    (sFull : Option String) (sSalt : List Char) (sUid : String)
    (now : Nat) (fresh sk alg : String)
    (hnd : (db.refresh_tokens.map (fun r => r.token)).Nodup)
    (hfresh : fresh ∉ db.refresh_tokens.map (fun r => r.token)) :
    revokedPersists db (login_for_access_token db ident pw now fresh sk alg).2 ∧
    revokedPersists db (refresh_access_token db (some t) now fresh sk alg).2 ∧
    revokedPersists db (logout db (some t)) ∧
    revokedPersists db (signup db sUsername sEmail sPassword sFull sSalt sUid).2 ∧
    (∀ db2, revokedPersists db db2 → ∀ rt ∈ db.refresh_tokens, rt.revoked = true →
      ∀ now2, _validate_refresh_token db2 rt.token now2 = none) := by
  refine ⟨?_, ?_, ?_, ?_, ?_⟩
  · cases h1 : authenticate_user db ident pw with
    | none =>
      have hs : (login_for_access_token db ident pw now fresh sk alg).2 = db := by
        simp [login_for_access_token, h1]
      rw [hs]
      exact revokedPersistsL_refl hnd
    | some user =>
      cases h2 : db.users.find? (fun x => x.username == user.username) with
      | none =>
        have hs : (login_for_access_token db ident pw now fresh sk alg).2 = db := by
          simp [login_for_access_token, h1, h2]
        rw [hs]
        exact revokedPersistsL_refl hnd
      | some db_user =>
        by_cases h3 : db_user.is_active
        · have hs : (login_for_access_token db ident pw now fresh sk alg).2 =
              { db with refresh_tokens := db.refresh_tokens ++
                [⟨db_user.id, fresh, now + REFRESH_TOKEN_EXPIRE_DAYS * 86400, false⟩] } := by
            simp [login_for_access_token, h1, h2, h3, _create_refresh_token_record]
          rw [hs]
          exact revokedPersistsL_append _ _ _ _ _ hnd hfresh
        · have h3' : db_user.is_active = false := by simpa using h3
          have hs : (login_for_access_token db ident pw now fresh sk alg).2 = db := by
            simp [login_for_access_token, h1, h2, h3']
          rw [hs]
          exact revokedPersistsL_refl hnd
  · by_cases ht : t = ""
    · have hs : (refresh_access_token db (some t) now fresh sk alg).2 = db := by
        simp [refresh_access_token, ht]
      rw [hs]
      exact revokedPersistsL_refl hnd
    · cases h1 : _validate_refresh_token db t now with
      | none =>
        have hs : (refresh_access_token db (some t) now fresh sk alg).2 = db := by
          simp [refresh_access_token, ht, h1]
        rw [hs]
        exact revokedPersistsL_refl hnd
      | some rt_record =>
        cases h2 : db.users.find? (fun x => x.id == rt_record.user_id) with
        | none =>
          have hs : (refresh_access_token db (some t) now fresh sk alg).2 = db := by
            simp [refresh_access_token, ht, h1, h2]
          rw [hs]
          exact revokedPersistsL_refl hnd
        | some db_user =>
          by_cases h3 : db_user.is_active
          · have hs : (refresh_access_token db (some t) now fresh sk alg).2 =
                { db with refresh_tokens := revokeFirst db.refresh_tokens t ++
                  [⟨db_user.id, fresh, now + REFRESH_TOKEN_EXPIRE_DAYS * 86400, false⟩] } := by
              simp [refresh_access_token, ht, h1, h2, h3, _create_refresh_token_record,
                _revoke_refresh_token]
            rw [hs]
            exact revokedPersistsL_revokeFirst_append _ _ _ _ _ _ hnd hfresh
          · have h3' : db_user.is_active = false := by simpa using h3
            have hs : (refresh_access_token db (some t) now fresh sk alg).2 = db := by
              simp [refresh_access_token, ht, h1, h2, h3']
            rw [hs]
            exact revokedPersistsL_refl hnd
  · by_cases ht : t = ""
    · have hs : logout db (some t) = db := by
        simp [logout, ht]
      rw [hs]
      exact revokedPersistsL_refl hnd
    · have hs : logout db (some t) = _revoke_refresh_token db t := by
        simp [logout, ht]
      rw [hs]
      exact revokedPersistsL_revokeFirst hnd
  · have hs : (signup db sUsername sEmail sPassword sFull sSalt sUid).2.refresh_tokens =
        db.refresh_tokens := by
      unfold signup
      split_ifs <;> rfl
    unfold revokedPersists
    rw [hs]
    exact revokedPersistsL_refl hnd
  · intro db2 hp rt hrt hrev now2
    exact validate_none_of_all_revoked db2 rt.token now2
      (fun rt' h' ht' => hp rt hrt hrev rt' h' ht')

/-- Witness for C7: on a concrete store holding a revoked token, logging
out another token leaves the revoked token rejected by validation. -/
theorem c7_witness :
    _validate_refresh_token (logout exDbRevoked (some "t9")) "t1" 7 = none := by
  have h := c7_revoked_is_terminal exDbRevoked "i" "p" "t9" "u" "e" "pw" none ['s'] "id"
    0 "f9" "k" "HS256" (by decide) (by decide)
  exact h.2.2.2.2 (logout exDbRevoked (some "t9")) h.2.2.1
    ⟨"u1", "t1", 100, true⟩ (by decide) (by decide) 7

end AuthSpec
